import Mathlib

/-!
Verification of the GALILEO metrics evaluator.

A shallow embedding, in Lean 4, of the core of the GALILEO/GALOIS metrics
evaluator (`src/galois_eval.py`, plain version, and
`src/src/utils/galois_eval.py`, the cached/optimized version), together with
theorems settling the frozen specification claims.

Modelling conventions:
* Python strings are modelled as `List Char` (`Str` below); table cells are
  already strings (the evaluator always passes cells through `str(...)`
  before normalization, which is the identity on strings).
* Python `float` arithmetic is idealized as exact rational arithmetic (`ℚ`),
  and `float(...)` parsing of a decimal literal yields its exact rational
  value.  The `"%.0f"`/`"%.2f"` formats are modelled as round-half-even on
  the exact value.  No claim in scope depends on binary-representation
  rounding of IEEE doubles.
* `re.search`/`re.match` on the three fixed unit patterns and on the plain
  numeric pattern are modelled by direct left-to-right scanning functions
  which reproduce the leftmost-match backtracking semantics of those
  particular patterns (`\s`, `\w`, `\d` restricted to their ASCII parts,
  which is all the claims exercise).
* `lru_cache` memoization of a pure function is the identity and is not
  modelled; the Python default argument `threshold_frac=0.1` is inlined
  (every caller in the repository uses the default).
-/

set_option allowUnsafeReducibility true in
attribute [semireducible] Rat.add Rat.mul Rat.inv Rat.sub Rat.ofScientific

abbrev Str := List Char

/-- Python whitespace (`str.strip`, regex `\s`), ASCII part. -/
def isSpacePy (c : Char) : Bool :=
  c = ' ' || c = '\t' || c = '\n' || c = '\r' || c = Char.ofNat 11 || c = Char.ofNat 12

/-- ASCII word character, the ASCII part of regex `\w`: letters, digits, underscore. -/
def isWordPy (c : Char) : Bool :=
  c.isAlphanum || c = '_'

/-- Python `s.replace(",", "")` — strip thousands separators. -/
def stripCommas (s : Str) : Str := s.filter (· ≠ ',')

/-- Python `s.replace("\n", "")`. -/
def removeNewlines (s : Str) : Str := s.filter (· ≠ '\n')

/-- Python `s.replace(",", ".")` — comma accepted as decimal separator in the
similarity engine. -/
def commaToDot (s : Str) : Str := s.map (fun c => if c = ',' then '.' else c)

/-- Python `str.strip()`: drop leading and trailing Python whitespace. -/
def pyStrip (s : Str) : Str :=
  (((s.dropWhile isSpacePy).reverse.dropWhile isSpacePy)).reverse

/-- The uppercase ASCII letters. -/
def upperABC : Str := "ABCDEFGHIJKLMNOPQRSTUVWXYZ".data

/-- The lowercase ASCII letters. -/
def lowerABC : Str := "abcdefghijklmnopqrstuvwxyz".data

/-- Python `str.lower()` on one character (ASCII part). -/
def lowerChar (c : Char) : Char :=
  match (upperABC.zip lowerABC).find? (fun p => p.1 = c) with
  | some p => p.2
  | none => c

/-- Python `str.lower()` (ASCII part). -/
def pyLower (s : Str) : Str := s.map lowerChar

/-- Digit run to a natural number. -/
def digitsToNat (s : Str) : ℕ :=
  s.foldl (fun n c => 10 * n + (c.toNat - 48)) 0

/-- Exact rational value of a decimal literal of shape `-?\d+(\.\d*)?`
(as produced by the numeric regexes of the normalizer); this is the
exact-rational idealization of Python `float(...)` on such strings. -/
def parseDecQ (s : Str) : ℚ :=
  match s with
  | '-' :: t => - parseDecQarg t
  | t => parseDecQarg t
where
  parseDecQarg (t : Str) : ℚ :=
    let ip := t.takeWhile Char.isDigit
    let r := t.dropWhile Char.isDigit
    match r with
    | '.' :: fr =>
      let fd := fr.takeWhile Char.isDigit
      (digitsToNat ip : ℚ) + (digitsToNat fd : ℚ) / ((10 : ℚ) ^ fd.length)
    | _ => (digitsToNat ip : ℚ)

/-- Python `float(...)` on a general string, exact-rational idealization.
Accepts optional surrounding whitespace, an optional sign, a mantissa
`\d+(\.\d*)? | \.\d+` and an optional exponent `[eE][+-]?\d+`; returns
`none` when the string is not such a literal (the `inf`/`nan` words and
digit-group underscores, which no claim exercises, are not modelled). -/
def pyFloat (s : Str) : Option ℚ :=
  let t := pyStrip s
  let (sgn, t1) : ℚ × Str :=
    match t with
    | '+' :: r => (1, r)
    | '-' :: r => (-1, r)
    | r => (1, r)
  let ip := t1.takeWhile Char.isDigit
  let r1 := t1.dropWhile Char.isDigit
  let mant : Option (ℚ × Str) :=
    match r1 with
    | '.' :: fr =>
      let fd := fr.takeWhile Char.isDigit
      let rest := fr.dropWhile Char.isDigit
      if ip.isEmpty && fd.isEmpty then none
      else some ((digitsToNat ip : ℚ) + (digitsToNat fd : ℚ) / ((10 : ℚ) ^ fd.length), rest)
    | _ =>
      if ip.isEmpty then none else some ((digitsToNat ip : ℚ), r1)
  match mant with
  | none => none
  | some (m, rest) =>
    match rest with
    | [] => some (sgn * m)
    | e :: r2 =>
      if e = 'e' || e = 'E' then
        let (esgn, r3) : ℤ × Str :=
          match r2 with
          | '+' :: r => (1, r)
          | '-' :: r => (-1, r)
          | r => (1, r)
        let ed := r3.takeWhile Char.isDigit
        if ed.isEmpty || !(r3.dropWhile Char.isDigit).isEmpty then none
        else some (sgn * m * (10 : ℚ) ^ (esgn * (digitsToNat ed : ℤ)))
      else none

/-- Round-half-even to an integer, the rounding used by Python `format`. -/
def roundHE (q : ℚ) : ℤ :=
  if q - ⌊q⌋ < 1 / 2 then ⌊q⌋
  else if q - ⌊q⌋ > 1 / 2 then ⌊q⌋ + 1
  else if ⌊q⌋ % 2 = 0 then ⌊q⌋ else ⌊q⌋ + 1

/-- Python `f"{v:.0f}"` on the exact value `v` (sign kept as Python keeps it,
so `-0.4` renders as `"-0"`). -/
def fmtF0 (q : ℚ) : Str :=
  (if q < 0 then ['-'] else []) ++ (Nat.repr (roundHE |q|).toNat).data

/-- Python `f"{v:.2f}"` on the exact value `v`. -/
def fmtF2 (q : ℚ) : Str :=
  let n := (roundHE (|q| * 100)).toNat
  (if q < 0 then ['-'] else []) ++
    (Nat.repr (n / 100)).data ++
    '.' :: (if n % 100 < 10 then '0' :: (Nat.repr (n % 100)).data else (Nat.repr (n % 100)).data)

/-- Does one of `units` (already-lowercase words) match at the head of `s`,
case-insensitively and followed by a regex word boundary `\b`?  This is the
`(million|m)\b` (resp. billion/thousand) tail of the unit patterns. -/
def unitMatch (units : List Str) (s : Str) : Bool :=
  units.any (fun u =>
    pyLower (s.take u.length) = u &&
      (match s.drop u.length with
       | [] => true
       | c :: _ => !isWordPy c))

/-- Model of `re.search` for `(\d+(?:\.\d+)?)\s*(U1|U2)\b` (case-insensitive):
scan left to right; at a digit, the leftmost match must take the maximal
digit run, optionally a maximal `.digits` part, then maximal `\s*`, then one
of the unit words with a word boundary (any backtracking into shorter digit
or space runs is provably fruitless for these patterns).  Returns the
number group of the leftmost match. -/
def searchUnit (units : List Str) : Str → Option Str
  | [] => none
  | c :: rest =>
    if c.isDigit then
      let d1 := (c :: rest).takeWhile Char.isDigit
      let r1 := (c :: rest).dropWhile Char.isDigit
      let nr : Str × Str :=
        match r1 with
        | '.' :: r1' =>
          if (r1'.takeWhile Char.isDigit).isEmpty then (d1, r1)
          else (d1 ++ '.' :: r1'.takeWhile Char.isDigit, r1'.dropWhile Char.isDigit)
        | _ => (d1, r1)
      if unitMatch units (nr.2.dropWhile isSpacePy) then some nr.1
      else searchUnit units rest
    else searchUnit units rest

/-- The `_million.search` of the evaluator. -/
def millionSearch (s : Str) : Option Str := searchUnit ["million".data, "m".data] s

/-- The `_billion.search` of the evaluator. -/
def billionSearch (s : Str) : Option Str := searchUnit ["billion".data, "b".data] s

/-- The `_thousand.search` of the evaluator. -/
def thousandSearch (s : Str) : Option Str := searchUnit ["thousand".data, "k".data] s

/-- Model of `_numeric.match`: full match of `^-?\d+(\.\d+)?$` (the argument has
already been stripped, so the `$`-before-trailing-newline case cannot
arise). -/
def pyNumericMatch (s : Str) : Bool :=
  let t := match s with
    | '-' :: r => r
    | r => r
  let ds := t.takeWhile Char.isDigit
  let r := t.dropWhile Char.isDigit
  !ds.isEmpty &&
    (match r with
     | [] => true
     | '.' :: fr => !fr.isEmpty && fr.all Char.isDigit
     | _ => false)

/-- Function `normalize_cell_java` of `src/galois_eval.py` (identical to
`_normalize_string` of `src/src/utils/galois_eval.py` minus the pure
memoization): strip commas; first unit match among million/billion/thousand
wins and is scaled and rendered with `"%.0f"`; else a plain numeric string is
reformatted (`"%.2f"` when it contains a dot, `"%.0f"` otherwise); else the
original string is returned with newlines removed, stripped and lowered. -/
def normalizeL (s : Str) : Str :=
  match millionSearch (stripCommas s) with
  | some g => fmtF0 (parseDecQ g * 1000000)
  | none =>
    match billionSearch (stripCommas s) with
    | some g => fmtF0 (parseDecQ g * 1000000000)
    | none =>
      match thousandSearch (stripCommas s) with
      | some g => fmtF0 (parseDecQ g * 1000)
      | none =>
        if pyNumericMatch (pyStrip (stripCommas s)) then
          if '.' ∈ pyStrip (stripCommas s) then fmtF2 (parseDecQ (pyStrip (stripCommas s)))
          else fmtF0 (parseDecQ (pyStrip (stripCommas s)))
        else pyLower (pyStrip (removeNewlines s))

/-- Python `norm(v) = normalize_cell_java(str(v))`; cells are modelled as strings,
on which `str` is the identity. -/
def norm (s : Str) : Str := normalizeL s

/-- The last branch of the normalizer (`s.replace("\n","").strip().lower()`). -/
def stringTransform (s : Str) : Str := pyLower (pyStrip (removeNewlines s))

/-- Does `s` fall into the final (string) branch of the normalizer?
No unit-suffix match on the comma-stripped form and no plain-numeric match
on its stripped form. -/
def stringBranch (s : Str) : Bool :=
  (millionSearch (stripCommas s)).isNone &&
  (billionSearch (stripCommas s)).isNone &&
  (thousandSearch (stripCommas s)).isNone &&
  !pyNumericMatch (pyStrip (stripCommas s))

/-- The Levenshtein DP of `edit_distance` (both files), expressed by the
textbook recurrence that the row-by-row dynamic program computes. -/
def levDP : Str → Str → ℕ
  | [], bs => bs.length
  | _ :: as', [] => as'.length + 1
  | a :: as', b :: bs' =>
    min (levDP as' (b :: bs') + 1)
      (min (levDP (a :: as') bs' + 1)
        (levDP as' bs' + (if a = b then 0 else 1)))
termination_by a b => a.length + b.length

/-- Function `edit_distance` of the evaluator: short-circuit on equality, empty-string
cases, swap so the first argument is the shorter (value-preserving, as
Levenshtein distance is symmetric), then the DP. -/
def edit_distance (a b : Str) : ℕ :=
  if a = b then 0
  else if a.length = 0 then b.length
  else if b.length = 0 then a.length
  else if a.length > b.length then levDP b a
  else levDP a b

/-- Function `cells_similar` of `src/galois_eval.py`, with the default
`threshold_frac = 0.1` inlined.  In the numeric branch the Python code
computes `variation = abs((ev - rv) / ev) if ev != 0 else (abs(rv) <= 0.1)`
and returns `variation <= 0.1`; when `ev == 0`, `variation` is therefore a
*boolean*, which Python compares to `0.1` as the number `1` or `0` — this is
modelled literally below. -/
def cells_similar (expected result : Str) : Bool :=
  match pyFloat (commaToDot expected), pyFloat (commaToDot result) with
  | some ev, some rv =>
    if ev ≠ 0 then decide (|(ev - rv) / ev| ≤ 1 / 10)
    else decide ((if |rv| ≤ 1 / 10 then (1 : ℚ) else 0) ≤ 1 / 10)
  | _, _ =>
    decide ((edit_distance expected result : ℤ) ≤ ⌊(expected.length : ℚ) * (1 / 10)⌋)

/-- Function `_cells_similar_default` of `src/src/utils/galois_eval.py` (the
`lru_cache` wrapper of a pure function is the identity): numeric branch with
an explicit zero case, else the edit-distance rule with the length-difference
pre-check and the `_lev_leq_k` fallback (which repeats the pre-check and then
compares the full edit distance with the threshold). -/
def cellsSimilarDefault (a b : Str) : Bool :=
  match pyFloat (commaToDot a), pyFloat (commaToDot b) with
  | some ev, some rv =>
    if ev = 0 then decide (|rv| ≤ 1 / 10)
    else decide (|(ev - rv) / ev| ≤ 1 / 10)
  | _, _ =>
    let k : ℤ := ⌊(a.length : ℚ) * (1 / 10)⌋
    if k < 0 then false
    else if |(a.length : ℤ) - (b.length : ℤ)| > k then false
    else if |(a.length : ℤ) - (b.length : ℤ)| > k then false
    else decide ((edit_distance a b : ℤ) ≤ k)

-- -------------- Cell-level metrics --------------

/-- Function `cells_set(cols, rows)`: the set of normalized strings over every cell of
every row (the `cols` argument is taken, as in the source, but unused). -/
def cells_set (cols : List Str) (rows : List (List Str)) : Finset Str :=
  (rows.flatten.map norm).toFinset

/-- Function `f1_cell_exact` of `src/galois_eval.py`: 1.0 when both normalized cell
sets are empty, 0.0 when exactly one is, else the harmonic mean of
precision `|gt ∩ pr| / |pr|` and recall `|gt ∩ pr| / |gt|` (0.0 when the
two fractions sum to zero). -/
def f1_cell_exact (gt_cols : List Str) (gt_rows : List (List Str))
    (pr_cols : List Str) (pr_rows : List (List Str)) : ℚ :=
  if cells_set gt_cols gt_rows = ∅ ∧ cells_set pr_cols pr_rows = ∅ then 1
  else if cells_set gt_cols gt_rows = ∅ ∨ cells_set pr_cols pr_rows = ∅ then 0
  else
    if (((cells_set gt_cols gt_rows ∩ cells_set pr_cols pr_rows).card : ℚ) /
          ((cells_set pr_cols pr_rows).card : ℚ)) +
        (((cells_set gt_cols gt_rows ∩ cells_set pr_cols pr_rows).card : ℚ) /
          ((cells_set gt_cols gt_rows).card : ℚ)) = 0 then 0
    else
      2 * (((cells_set gt_cols gt_rows ∩ cells_set pr_cols pr_rows).card : ℚ) /
            ((cells_set pr_cols pr_rows).card : ℚ)) *
          (((cells_set gt_cols gt_rows ∩ cells_set pr_cols pr_rows).card : ℚ) /
            ((cells_set gt_cols gt_rows).card : ℚ)) /
        ((((cells_set gt_cols gt_rows ∩ cells_set pr_cols pr_rows).card : ℚ) /
            ((cells_set pr_cols pr_rows).card : ℚ)) +
          (((cells_set gt_cols gt_rows ∩ cells_set pr_cols pr_rows).card : ℚ) /
            ((cells_set gt_cols gt_rows).card : ℚ)))

/-- Specification-side precision: `|gt ∩ pr| / |pr|` over the normalized
cell-value sets. -/
def precisionQ (gt pr : Finset Str) : ℚ := ((gt ∩ pr).card : ℚ) / (pr.card : ℚ)

/-- Specification-side recall: `|gt ∩ pr| / |gt|` over the normalized
cell-value sets. -/
def recallQ (gt pr : Finset Str) : ℚ := ((gt ∩ pr).card : ℚ) / (gt.card : ℚ)

-- -------------- Tuple metrics --------------

/-- Function `_normalize_rows_full`: normalize every cell of every row. -/
def normalizeRowsFull (rows : List (List Str)) : List (List Str) :=
  rows.map (fun r => r.map norm)

/-- The sort key of `_sort_by_second_cell`: `r[1] if len(r) > 1 else ""`. -/
def secondCellKey (r : List Str) : Str :=
  match r with
  | _ :: k :: _ => k
  | _ => []

/-- Function `_sort_by_second_cell`: Python `sorted` with the second-cell key
(a stable sort; any sorting algorithm yields a permutation with the same
multiset of rows, which is all the tuple metrics consume). -/
def sortBySecondCell (rows : List (List Str)) : List (List Str) :=
  rows.insertionSort (fun r1 r2 => ¬ secondCellKey r2 < secondCellKey r1)

/-- Python `collections.Counter(xs).get(key, None)`: `none` when the key is absent,
else its multiplicity. -/
def counterGet (xs : List (List Str)) (key : List Str) : Option ℕ :=
  if xs.count key = 0 then none else some (xs.count key)

/-- Function `tuple_constraint` (identical in both files): full rows are normalized
cell-wise, counted as a multiset keyed by the whole tuple, and a distinct
expected row is good iff the predicted multiset has it with exactly the
same multiplicity; the score is good distinct rows over all distinct
expected rows, with the two empty-side special cases first. -/
def tuple_constraint (gt_rows pr_rows : List (List Str)) : ℚ :=
  if (sortBySecondCell (normalizeRowsFull gt_rows)).isEmpty ∧
      (sortBySecondCell (normalizeRowsFull pr_rows)).isEmpty then 1
  else if (sortBySecondCell (normalizeRowsFull gt_rows)).isEmpty then 0
  else
    (((sortBySecondCell (normalizeRowsFull gt_rows)).dedup.countP
      (fun row => counterGet (sortBySecondCell (normalizeRowsFull pr_rows)) row =
        some ((sortBySecondCell (normalizeRowsFull gt_rows)).count row)) : ℕ) : ℚ) /
    (((sortBySecondCell (normalizeRowsFull gt_rows)).dedup.length : ℕ) : ℚ)

/-- Specification-side reading of the exact tuple constraint, written
directly from the claim with no sorting and no `Counter`: the number of
distinct normalized expected rows whose multiplicity in the predicted
multiset equals their multiplicity in the expected multiset. -/
def matchedDistinctRows (gt_rows pr_rows : List (List Str)) : ℕ :=
  ((normalizeRowsFull gt_rows).dedup.filter
    (fun row => (normalizeRowsFull pr_rows).count row = (normalizeRowsFull gt_rows).count row)).length

-- -------------- Dataset & overall aggregation --------------

/-- The token/time metadata of one query of a dataset, as extracted by
`read_submission_file` (`none` encodes a missing value). -/
structure QueryMeta where
  q_tokens : Option ℚ
  q_time : Option ℚ

/-- The part of a dataset scorecard that the aggregation claims concern:
the query count and the strict token-sum / time-average fields. -/
structure DatasetAgg where
  n : ℕ
  d_tokens : Option ℚ
  d_avg_time : Option ℚ

/-- The tokens/time aggregation of `eval_dataset` (`src/galois_eval.py`
lines 342-411), restricted to the fields the aggregation claims mention
(the per-query metric averages are independent of this logic): sum the
tokens that are present and remember whether all were present, collect the
time values that are present and remember whether all were present; the
dataset fields are populated only when `n > 0` and the corresponding
all-present flag holds. -/
def eval_dataset (qs : List QueryMeta) : DatasetAgg :=
  { n := qs.length
    d_tokens :=
      if 0 < qs.length ∧ qs.all (fun q => q.q_tokens.isSome) = true then
        some ((qs.filterMap (fun q => q.q_tokens)).sum)
      else none
    d_avg_time :=
      if 0 < qs.length ∧ qs.all (fun q => q.q_time.isSome) = true then
        some ((qs.filterMap (fun q => q.q_time)).sum / ((qs.filterMap (fun q => q.q_time)).length : ℚ))
      else none }

/-- The running state of the ALL-row loop of `main` (`src/galois_eval.py`
lines 503-538), restricted to query count, tokens and time. -/
structure MainAcc where
  tot_q : ℕ
  all_tok : Bool
  tok_sum : ℚ
  all_time : Bool
  tw_sum : ℚ
  tw_n : ℕ

/-- One iteration of the ALL-row loop of `main`: add the query count; a
dataset with absent tokens clears the token flag, otherwise its tokens are
added; a dataset with absent time *or zero queries* clears the time flag,
otherwise its average time enters the query-count-weighted sum. -/
def mainStep (acc : MainAcc) (d : DatasetAgg) : MainAcc :=
  { tot_q := acc.tot_q + d.n
    all_tok := acc.all_tok && d.d_tokens.isSome
    tok_sum :=
      match d.d_tokens with
      | some t => acc.tok_sum + t
      | none => acc.tok_sum
    all_time := acc.all_time && (d.d_avg_time.isSome && !(d.n = 0 : Bool))
    tw_sum :=
      match d.d_avg_time with
      | some t => if d.n = 0 then acc.tw_sum else acc.tw_sum + t * (d.n : ℚ)
      | none => acc.tw_sum
    tw_n :=
      match d.d_avg_time with
      | some _ => if d.n = 0 then acc.tw_n else acc.tw_n + d.n
      | none => acc.tw_n }

/-- The ALL-row aggregation of `main` with `--overall` (lines 503-563 of
`src/galois_eval.py`): fold the per-dataset scorecards, then the overall
token sum is present only when every dataset reported tokens and at least
one query exists, and the overall time is the weighted sum over the weight
only when no dataset cleared the time flag and the weight is positive. -/
def mainOverall (ds : List DatasetAgg) : Option ℚ × Option ℚ :=
  ( if (ds.foldl mainStep ⟨0, true, 0, true, 0, 0⟩).all_tok = true ∧
        0 < (ds.foldl mainStep ⟨0, true, 0, true, 0, 0⟩).tot_q then
      some (ds.foldl mainStep ⟨0, true, 0, true, 0, 0⟩).tok_sum
    else none,
    if (ds.foldl mainStep ⟨0, true, 0, true, 0, 0⟩).all_time = true ∧
        0 < (ds.foldl mainStep ⟨0, true, 0, true, 0, 0⟩).tw_n then
      some ((ds.foldl mainStep ⟨0, true, 0, true, 0, 0⟩).tw_sum /
        ((ds.foldl mainStep ⟨0, true, 0, true, 0, 0⟩).tw_n : ℚ))
    else none )

-- -------------- File-reading dispatch --------------

/-- A query result table. -/
structure Table where
  cols : List Str
  rows : List (List Str)

/-- The error raised for an unrecognized file extension
(`ValueError(f"Unsupported file type: {path}")`). -/
inductive ReadError where
  | unsupportedFormat
deriving DecidableEq

/-- What the dispatch logic of the readers observes about a path: whether
the file exists and its extension (`path.suffix`, dot included). -/
structure PathInfo where
  fileExists : Bool
  suffix : Str

/-- Function `read_table_file`: dispatch on the lowercased extension; the CSV and
JSON parsers are abstracted as the functions `readCsv`/`readJson` (the
claims in scope only concern the dispatch). -/
def read_table_file (readCsv readJson : PathInfo → Table) (p : PathInfo) :
    Except ReadError Table :=
  if pyLower p.suffix = ".csv".data then .ok (readCsv p)
  else if pyLower p.suffix = ".json".data then .ok (readJson p)
  else .error .unsupportedFormat

/-- Function `read_submission_file`: `None` or a missing file yields an empty table
with absent tokens and time before any file access; otherwise dispatch on
the lowercased extension, with the JSON branch also producing the optional
tokens/time pair (abstracted as `readJsonSub`). -/
def read_submission_file (readCsv : PathInfo → Table)
    (readJsonSub : PathInfo → Table × Option ℚ × Option ℚ) (p : Option PathInfo) :
    Except ReadError (Table × Option ℚ × Option ℚ) :=
  match p with
  | none => .ok (⟨[], []⟩, none, none)
  | some q =>
    if q.fileExists = false then .ok (⟨[], []⟩, none, none)
    else if pyLower q.suffix = ".csv".data then .ok (readCsv q, none, none)
    else if pyLower q.suffix = ".json".data then .ok (readJsonSub q)
    else .error .unsupportedFormat

-- -------------- Helper lemmas on characters and trimming --------------

theorem lowerChar_of_not_upper {c : Char} (h : c ∉ upperABC) : lowerChar c = c := by
  unfold lowerChar
  have hf : (upperABC.zip lowerABC).find? (fun p => p.1 = c) = none := by
    rw [List.find?_eq_none]
    intro p hp
    have h1 : p.1 ∈ upperABC := (List.of_mem_zip hp).1
    simp only [decide_eq_true_eq]
    intro hpc
    exact h (hpc ▸ h1)
  rw [hf]

theorem lowerChar_mem_lower : ∀ c ∈ upperABC, lowerChar c ∈ lowerABC := by decide

theorem lower_not_upper : ∀ c ∈ lowerABC, c ∉ upperABC := by decide

theorem upper_not_space : ∀ c ∈ upperABC, isSpacePy c = false := by decide

theorem lower_not_space : ∀ c ∈ lowerABC, isSpacePy c = false := by decide

theorem lower_ne_newline : ∀ c ∈ lowerABC, c ≠ '\n' := by decide

theorem lowerChar_idem (c : Char) : lowerChar (lowerChar c) = lowerChar c := by
  by_cases h : c ∈ upperABC
  · exact lowerChar_of_not_upper (lower_not_upper _ (lowerChar_mem_lower c h))
  · rw [lowerChar_of_not_upper h, lowerChar_of_not_upper h]

theorem isSpacePy_lowerChar (c : Char) : isSpacePy (lowerChar c) = isSpacePy c := by
  by_cases h : c ∈ upperABC
  · rw [lower_not_space _ (lowerChar_mem_lower c h), upper_not_space c h]
  · rw [lowerChar_of_not_upper h]

theorem lowerChar_eq_newline {c : Char} (h : lowerChar c = '\n') : c = '\n' := by
  by_cases hc : c ∈ upperABC
  · exact absurd h (lower_ne_newline _ (lowerChar_mem_lower c hc))
  · rwa [lowerChar_of_not_upper hc] at h

theorem dropWhile_dropWhile (p : Char → Bool) (l : Str) :
    (l.dropWhile p).dropWhile p = l.dropWhile p := by
  induction l with
  | nil => rfl
  | cons a t ih =>
    by_cases h : p a = true
    · simp [List.dropWhile, h, ih]
    · simp [List.dropWhile, h]

theorem head_dropWhile_false (p : Char → Bool) (l : Str) :
    ∀ c ∈ (l.dropWhile p).head?, p c = false := by
  induction l with
  | nil => simp [List.dropWhile]
  | cons a t ih =>
    by_cases h : p a = true
    · simpa [List.dropWhile, h] using ih
    · simp only [Bool.not_eq_true] at h
      simp [List.dropWhile, h]

theorem dropWhile_of_head_false (p : Char → Bool) (l : Str)
    (h : ∀ c ∈ l.head?, p c = false) : l.dropWhile p = l := by
  cases l with
  | nil => rfl
  | cons a t => simp [List.dropWhile, h a (by simp)]

theorem getLast?_dropWhile (p : Char → Bool) (l : Str) (h : l.dropWhile p ≠ []) :
    (l.dropWhile p).getLast? = l.getLast? := by
  induction l with
  | nil => simp at h
  | cons a t ih =>
    by_cases hp : p a = true
    · have h' : t.dropWhile p ≠ [] := by simpa [List.dropWhile, hp] using h
      have ht : t ≠ [] := by
        intro he
        exact h' (by simp [he])
      rw [show (a :: t).dropWhile p = t.dropWhile p by simp [List.dropWhile, hp], ih h']
      cases t with
      | nil => exact absurd rfl ht
      | cons b t' => simp
    · simp only [Bool.not_eq_true] at hp
      simp [List.dropWhile, hp]

theorem pyStrip_dropWhile (l : Str) : (pyStrip l).dropWhile isSpacePy = pyStrip l := by
  apply dropWhile_of_head_false
  intro c hc
  unfold pyStrip at hc
  set A := l.dropWhile isSpacePy with hA
  by_cases hn : A.reverse.dropWhile isSpacePy = []
  · rw [hn] at hc
    simp at hc
  · rw [List.head?_reverse, getLast?_dropWhile _ _ hn, List.getLast?_reverse] at hc
    exact head_dropWhile_false isSpacePy l c (hA ▸ hc)

theorem pyStrip_idem (l : Str) : pyStrip (pyStrip l) = pyStrip l := by
  have h0 : (pyStrip l).dropWhile isSpacePy = pyStrip l := pyStrip_dropWhile l
  show (((pyStrip l).dropWhile isSpacePy).reverse.dropWhile isSpacePy).reverse = pyStrip l
  rw [h0]
  have h1 : (pyStrip l).reverse = (l.dropWhile isSpacePy).reverse.dropWhile isSpacePy := by
    show ((((l.dropWhile isSpacePy).reverse.dropWhile isSpacePy)).reverse).reverse = _
    rw [List.reverse_reverse]
  rw [h1, dropWhile_dropWhile, ← h1, List.reverse_reverse]

theorem dropWhile_map_lower (l : Str) :
    (l.map lowerChar).dropWhile isSpacePy = (l.dropWhile isSpacePy).map lowerChar := by
  induction l with
  | nil => rfl
  | cons a t ih =>
    by_cases h : isSpacePy a = true
    · simp [List.dropWhile, h, isSpacePy_lowerChar, ih]
    · simp only [Bool.not_eq_true] at h
      simp [List.dropWhile, h, isSpacePy_lowerChar]

theorem pyStrip_pyLower (l : Str) : pyStrip (pyLower l) = pyLower (pyStrip l) := by
  unfold pyStrip pyLower
  rw [dropWhile_map_lower, ← List.map_reverse, dropWhile_map_lower, ← List.map_reverse]

theorem pyLower_idem (l : Str) : pyLower (pyLower l) = pyLower l := by
  unfold pyLower
  rw [List.map_map]
  exact List.map_congr_left (fun c _ => lowerChar_idem c)

theorem pyStrip_sublist (l : Str) : List.Sublist (pyStrip l) l := by
  have a1 : List.Sublist ((l.dropWhile isSpacePy).reverse.dropWhile isSpacePy)
      ((l.dropWhile isSpacePy).reverse) := List.dropWhile_sublist _
  have a2 := a1.reverse
  rw [List.reverse_reverse] at a2
  exact a2.trans (List.dropWhile_sublist _)

theorem newline_not_mem_stringTransform (s : Str) : '\n' ∉ stringTransform s := by
  intro hmem
  unfold stringTransform pyLower at hmem
  obtain ⟨c, hc, hlc⟩ := List.mem_map.mp hmem
  have hc' : c = '\n' := lowerChar_eq_newline hlc
  subst hc'
  have h2 : '\n' ∈ removeNewlines s := (pyStrip_sublist (removeNewlines s)).mem hc
  have h3 := (List.mem_filter.mp h2).2
  simp at h3

theorem removeNewlines_stringTransform (s : Str) :
    removeNewlines (stringTransform s) = stringTransform s := by
  unfold removeNewlines
  apply List.filter_eq_self.mpr
  intro a ha
  have : a ≠ '\n' := by
    intro he
    exact newline_not_mem_stringTransform s (he ▸ ha)
  simpa using this

theorem stringTransform_idem (s : Str) :
    stringTransform (stringTransform s) = stringTransform s := by
  show pyLower (pyStrip (removeNewlines (stringTransform s))) = stringTransform s
  rw [removeNewlines_stringTransform]
  show pyLower (pyStrip (pyLower (pyStrip (removeNewlines s)))) = stringTransform s
  rw [pyStrip_pyLower, pyStrip_idem, pyLower_idem]
  rfl

theorem normalizeL_of_stringBranch (s : Str) (h : stringBranch s = true) :
    normalizeL s = stringTransform s := by
  unfold stringBranch at h
  simp only [Bool.and_eq_true, Bool.not_eq_true', Option.isNone_iff_eq_none] at h
  obtain ⟨⟨⟨h1, h2⟩, h3⟩, h4⟩ := h
  unfold normalizeL
  rw [h1, h2, h3]
  simp only [h4, Bool.false_eq_true, if_false]
  rfl

-- -------------- Claim theorems --------------

/-- Claim C1 (code bug): the claim states that when both arguments parse as
numbers and the expected value is exactly zero, `cells_similar(a, b)` is
true iff `|b| ≤ 0.1`, with `cells_similar("0", "0.05")` true and
`cells_similar("0", "0.2")` false.  The plain implementation in
`src/galois_eval.py` assigns the boolean `abs(rv) <= 0.1` to `variation`
and then returns `variation <= 0.1`, which inverts the test (Python
compares `True` as `1`): it returns the opposite booleans at both cited
inputs, while the cached `_cells_similar_default` of
`src/src/utils/galois_eval.py` implements the claimed behaviour.  This
theorem evaluates both embedded implementations at the failing inputs. -/
theorem cells_similar_zero_branch_inverted :
    cells_similar "0".data "0.05".data = false ∧
    cells_similar "0".data "0.2".data = true ∧
    cellsSimilarDefault "0".data "0.05".data = true ∧
    cellsSimilarDefault "0".data "0.2".data = false :=
  ⟨by decide, by decide, by decide, by decide⟩

/-- Claim C2 (code bug): the claim states that the plain `cells_similar` and
the cached/fast-path `_cells_similar_default` agree on every input pair.
They disagree whenever both arguments parse as numbers and the expected
value is exactly zero, because of the inverted zero branch of the plain
version (see C1) — not because of the memoization or the length pre-check.
This theorem exhibits the disagreement at a concrete input. -/
theorem cells_similar_plain_vs_default_differ :
    cells_similar "0".data "0.05".data ≠ cellsSimilarDefault "0".data "0.05".data := by
  decide

/-- Claim C10 (confirmed): the similarity predicate is not symmetric — with
`a = "100"` and `b = "90"`, `|100-90|/100 = 0.10 ≤ 0.1` holds but
`|90-100|/90 > 0.1` does not, in both the plain and the cached
implementation, because the relative tolerance is scaled by the first
(expected) argument only. -/
theorem cells_similar_asymmetric :
    cells_similar "100".data "90".data = true ∧
    cells_similar "90".data "100".data = false ∧
    cellsSimilarDefault "100".data "90".data = true ∧
    cellsSimilarDefault "90".data "100".data = false :=
  ⟨by decide, by decide, by decide, by decide⟩

/-- Claim C8 (corrected), counterexample: the input `"1,2\n3"` is taken by the
string branch of the normalizer (no unit-suffix match, and its
comma-stripped, stripped form `"12\n3"` is not plain-numeric), yet
normalization is not idempotent on it: the string branch keeps the comma
but removes the newline, producing `"1,23"`, whose comma-stripped form
*is* plain-numeric, so a second normalization returns `"123"`. -/
theorem normalize_not_idempotent_on_stringBranch_cex :
    stringBranch "1,2\n3".data = true ∧
    normalizeL (normalizeL "1,2\n3".data) ≠ normalizeL "1,2\n3".data :=
  ⟨by decide, by decide⟩

/-- Claim C8 (corrected), amended claim: for every input taken by the string
branch of the normalizer *whose string-branch output is itself taken by the
string branch*, normalization is idempotent.  (The amendment is forced by
the counterexample: the newline-removing, lowercasing transform can move
its output into a numeric or unit branch.) -/
theorem normalize_idempotent_on_stringBranch (s : Str)
    (h1 : stringBranch s = true) (h2 : stringBranch (normalizeL s) = true) :
    normalizeL (normalizeL s) = normalizeL s := by
  rw [normalizeL_of_stringBranch s h1] at h2 ⊢
  rw [normalizeL_of_stringBranch _ h2]
  exact stringTransform_idem s

/-- Witness for C8 at a concrete string-branch input. -/
theorem normalize_idempotent_on_stringBranch_witness :
    normalizeL (normalizeL "Hello World".data) = normalizeL "Hello World".data :=
  normalize_idempotent_on_stringBranch _ (by decide) (by decide)

/-- Claim C7 (confirmed): whenever the million pattern
`(\d+(?:\.\d+)?)\s*(million|m)\b` matches the comma-stripped input (with
number group `g`), the normalizer returns the value of `g` multiplied by
1e6 and rendered in integer format with no decimals. -/
theorem normalize_million_rule (s g : Str)
    (h : millionSearch (stripCommas s) = some g) :
    normalizeL s = fmtF0 (parseDecQ g * 1000000) := by
  unfold normalizeL
  rw [h]

/-- Witness for C7: the match on `"2.5 million"` and the two concrete
equalities of the claim, `normalize("2.5 million") = normalize("2500000")
= "2500000"`. -/
theorem normalize_million_rule_witness :
    millionSearch (stripCommas "2.5 million".data) = some "2.5".data ∧
    normalizeL "2.5 million".data = "2500000".data ∧
    normalizeL "2500000".data = "2500000".data :=
  ⟨by decide,
   (normalize_million_rule "2.5 million".data "2.5".data (by decide)).trans (by decide),
   by decide⟩

theorem count_perm_str {xs ys : List (List Str)} (h : List.Perm xs ys) (key : List Str) :
    List.count key xs = List.count key ys := by
  simp only [List.count]
  exact h.countP_eq _

theorem counterGet_perm {xs ys : List (List Str)} (h : List.Perm xs ys) (key : List Str) :
    counterGet xs key = counterGet ys key := by
  unfold counterGet
  rw [count_perm_str h]

/-- Claim C3 (confirmed): `tuple_constraint` scores a distinct normalized
expected row as matched iff the predicted multiset contains that exact row
with *exactly* the expected multiplicity, and returns matched distinct
expected rows over total distinct expected rows (the sorting step is a
permutation and cannot affect the multiset counts). -/
theorem tuple_constraint_exact_multiplicity (gt_rows pr_rows : List (List Str))
    (h : gt_rows ≠ []) :
    tuple_constraint gt_rows pr_rows =
      (matchedDistinctRows gt_rows pr_rows : ℚ) /
        ((normalizeRowsFull gt_rows).dedup.length : ℚ) := by
  unfold tuple_constraint
  have permG : List.Perm (sortBySecondCell (normalizeRowsFull gt_rows)) (normalizeRowsFull gt_rows) :=
    List.perm_insertionSort _ _
  have permP : List.Perm (sortBySecondCell (normalizeRowsFull pr_rows)) (normalizeRowsFull pr_rows) :=
    List.perm_insertionSort _ _
  have hGne : normalizeRowsFull gt_rows ≠ [] := by
    intro he
    exact h (List.map_eq_nil_iff.mp he)
  have hSne : sortBySecondCell (normalizeRowsFull gt_rows) ≠ [] := by
    intro he
    apply hGne
    have hl := permG.length_eq
    rw [he] at hl
    exact List.length_eq_zero.mp hl.symm
  rw [if_neg (by simp [List.isEmpty_iff, hSne]), if_neg (by simp [List.isEmpty_iff, hSne])]
  have hkeyslen : (sortBySecondCell (normalizeRowsFull gt_rows)).dedup.length =
      (normalizeRowsFull gt_rows).dedup.length := permG.dedup.length_eq
  have hcount : (sortBySecondCell (normalizeRowsFull gt_rows)).dedup.countP
      (fun row => counterGet (sortBySecondCell (normalizeRowsFull pr_rows)) row =
        some ((sortBySecondCell (normalizeRowsFull gt_rows)).count row)) =
      matchedDistinctRows gt_rows pr_rows := by
    unfold matchedDistinctRows
    rw [← List.countP_eq_length_filter]
    rw [permG.dedup.countP_eq]
    apply List.countP_congr
    intro row hrow
    have hmem : row ∈ normalizeRowsFull gt_rows := List.mem_dedup.mp hrow
    have hcnt : 0 < (normalizeRowsFull gt_rows).count row := List.count_pos_iff.mpr hmem
    rw [counterGet_perm permP, count_perm_str permG]
    unfold counterGet
    simp only [decide_eq_true_eq]
    by_cases hz : List.count row (normalizeRowsFull pr_rows) = 0
    · rw [if_pos hz]
      constructor
      · intro hfalse
        exact absurd hfalse (by simp)
      · intro heq
        omega
    · rw [if_neg hz]
      simp only [Option.some.injEq]
  rw [hcount, hkeyslen]

/-- Witness for C3: the claim's concrete example — expected rows
`[("a","1"), ("a","1")]` against predicted `[("a","1")]` have multiplicity
2 against 1, so the single distinct expected row is unmatched and the score
is 0. -/
theorem tuple_constraint_exact_multiplicity_witness :
    tuple_constraint [["a".data, "1".data], ["a".data, "1".data]] [["a".data, "1".data]] = 0 :=
  (tuple_constraint_exact_multiplicity _ _ (by decide)).trans (by decide)

/-- Claim C6 (confirmed): `f1_cell_exact` is 1.0 exactly when the two
normalized cell-value sets are identical (in particular both empty), 0.0
whenever exactly one of the two sets is empty, and otherwise the harmonic
mean of precision `|gt ∩ pr|/|pr|` and recall `|gt ∩ pr|/|gt|`, with 0.0
when precision and recall sum to zero. -/
theorem f1_cell_exact_spec (gc : List Str) (gr : List (List Str))
    (pc : List Str) (pr : List (List Str)) :
    (f1_cell_exact gc gr pc pr = 1 ↔ cells_set gc gr = cells_set pc pr) ∧
    (((cells_set gc gr = ∅ ∧ cells_set pc pr ≠ ∅) ∨
      (cells_set gc gr ≠ ∅ ∧ cells_set pc pr = ∅)) → f1_cell_exact gc gr pc pr = 0) ∧
    (cells_set gc gr ≠ ∅ → cells_set pc pr ≠ ∅ →
      f1_cell_exact gc gr pc pr =
        if precisionQ (cells_set gc gr) (cells_set pc pr) +
            recallQ (cells_set gc gr) (cells_set pc pr) = 0 then 0
        else
          2 * precisionQ (cells_set gc gr) (cells_set pc pr) *
              recallQ (cells_set gc gr) (cells_set pc pr) /
            (precisionQ (cells_set gc gr) (cells_set pc pr) +
              recallQ (cells_set gc gr) (cells_set pc pr))) := by
  set G := cells_set gc gr with hGdef
  set P := cells_set pc pr with hPdef
  by_cases hG : G = ∅ <;> by_cases hP : P = ∅
  · refine ⟨?_, ?_, ?_⟩
    · rw [f1_cell_exact, if_pos ⟨hG, hP⟩, hG, hP]
      simp
    · intro hc
      rcases hc with ⟨_, hne⟩ | ⟨hne, _⟩ <;> exact absurd (by assumption) hne
    · intro hne _
      exact absurd hG hne
  · have hf0 : f1_cell_exact gc gr pc pr = 0 := by
      rw [f1_cell_exact, if_neg (by tauto), if_pos (by tauto)]
    refine ⟨?_, fun _ => hf0, ?_⟩
    · rw [hf0]
      constructor
      · intro h01
        exact absurd h01 (by norm_num)
      · intro hGP
        exact absurd (hGP ▸ hG) hP
    · intro hne _
      exact absurd hG hne
  · have hf0 : f1_cell_exact gc gr pc pr = 0 := by
      rw [f1_cell_exact, if_neg (by tauto), if_pos (by tauto)]
    refine ⟨?_, fun _ => hf0, ?_⟩
    · rw [hf0]
      constructor
      · intro h01
        exact absurd h01 (by norm_num)
      · intro hGP
        exact absurd (by rw [hGP]; exact hP) hG
    · intro _ hne
      exact absurd hP hne
  · have hf : f1_cell_exact gc gr pc pr =
        if precisionQ G P + recallQ G P = 0 then 0
        else 2 * precisionQ G P * recallQ G P / (precisionQ G P + recallQ G P) := by
      rw [f1_cell_exact, if_neg (by tauto), if_neg (by tauto)]
      rfl
    have hGcard : 0 < G.card := Finset.card_pos.mpr (Finset.nonempty_iff_ne_empty.mpr hG)
    have hPcard : 0 < P.card := Finset.card_pos.mpr (Finset.nonempty_iff_ne_empty.mpr hP)
    have hGq : (G.card : ℚ) ≠ 0 := Nat.cast_ne_zero.mpr (Nat.pos_iff_ne_zero.mp hGcard)
    have hPq : (P.card : ℚ) ≠ 0 := Nat.cast_ne_zero.mpr (Nat.pos_iff_ne_zero.mp hPcard)
    have hia : (G ∩ P).card ≤ G.card := Finset.card_le_card Finset.inter_subset_left
    have hib : (G ∩ P).card ≤ P.card := Finset.card_le_card Finset.inter_subset_right
    refine ⟨?_, ?_, fun _ _ => hf⟩
    · rw [hf]
      constructor
      · intro h1
        by_cases hz : precisionQ G P + recallQ G P = 0
        · rw [if_pos hz] at h1
          exact absurd h1 (by norm_num)
        · rw [if_neg hz] at h1
          have h2 : 2 * precisionQ G P * recallQ G P = precisionQ G P + recallQ G P :=
            (div_eq_one_iff_eq hz).mp h1
          unfold precisionQ recallQ at h2 hz
          have key : 2 * ((G ∩ P).card : ℚ) * ((G ∩ P).card : ℚ) =
              ((G ∩ P).card : ℚ) * P.card + ((G ∩ P).card : ℚ) * G.card := by
            field_simp at h2
            linarith [h2]
          have hi0 : ((G ∩ P).card : ℚ) ≠ 0 := by
            intro hi
            apply hz
            rw [hi]
            simp
          have h3 : 2 * ((G ∩ P).card : ℚ) = (P.card : ℚ) + G.card := by
            have h4 : ((G ∩ P).card : ℚ) * (2 * (G ∩ P).card) =
                ((G ∩ P).card : ℚ) * ((P.card : ℚ) + G.card) := by
              linear_combination key
            exact mul_left_cancel₀ hi0 h4
          have h5 : 2 * (G ∩ P).card = P.card + G.card := by exact_mod_cast h3
          have hae : (G ∩ P).card = G.card := by omega
          have hbe : (G ∩ P).card = P.card := by omega
          have hPsub : P ⊆ G := Finset.inter_eq_right.mp
            (Finset.eq_of_subset_of_card_le Finset.inter_subset_right (le_of_eq hbe.symm))
          have hGsub : G ⊆ P := Finset.inter_eq_left.mp
            (Finset.eq_of_subset_of_card_le Finset.inter_subset_left (le_of_eq hae.symm))
          exact Finset.Subset.antisymm hGsub hPsub
      · intro hGP
        rw [hGP]
        unfold precisionQ recallQ
        rw [Finset.inter_self, div_self hPq]
        norm_num
    · intro hc
      rcases hc with ⟨ha, _⟩ | ⟨_, hb⟩
      · exact absurd ha hG
      · exact absurd hb hP

/-- Witness for C6 at concrete tables with equal normalized cell sets. -/
theorem f1_cell_exact_spec_witness :
    f1_cell_exact [] [["x".data]] [] [["x".data]] = 1 :=
  (f1_cell_exact_spec [] [["x".data]] [] [["x".data]]).1.mpr rfl

theorem mainFold_core (ds : List DatasetAgg) (acc : MainAcc) :
    (ds.foldl mainStep acc).tot_q = acc.tot_q + (ds.map (fun d => d.n)).sum ∧
    (ds.foldl mainStep acc).all_tok = (acc.all_tok && ds.all (fun d => d.d_tokens.isSome)) ∧
    (ds.foldl mainStep acc).tok_sum = acc.tok_sum + (ds.filterMap (fun d => d.d_tokens)).sum ∧
    (ds.foldl mainStep acc).all_time =
      (acc.all_time && ds.all (fun d => d.d_avg_time.isSome && !decide (d.n = 0))) := by
  induction ds generalizing acc with
  | nil => simp
  | cons d ds ih =>
    obtain ⟨ih1, ih2, ih3, ih4⟩ := ih (mainStep acc d)
    refine ⟨?_, ?_, ?_, ?_⟩
    · rw [List.foldl_cons, ih1]
      simp only [mainStep, List.map_cons, List.sum_cons]
      omega
    · rw [List.foldl_cons, ih2]
      simp [mainStep, Bool.and_assoc]
    · rw [List.foldl_cons, ih3]
      cases htok : d.d_tokens with
      | none => simp [mainStep, List.filterMap_cons, htok]
      | some t =>
        simp only [mainStep, htok, List.filterMap_cons, List.sum_cons]
        ring
    · rw [List.foldl_cons, ih4]
      simp [mainStep, Bool.and_assoc]

theorem mainFold_tw (ds : List DatasetAgg) (acc : MainAcc)
    (h : ∀ d ∈ ds, d.d_avg_time ≠ none ∧ d.n ≠ 0) :
    (ds.foldl mainStep acc).tw_sum =
      acc.tw_sum + (ds.map (fun d => d.d_avg_time.getD 0 * (d.n : ℚ))).sum ∧
    (ds.foldl mainStep acc).tw_n = acc.tw_n + (ds.map (fun d => d.n)).sum := by
  induction ds generalizing acc with
  | nil => simp
  | cons d ds ih =>
    obtain ⟨hd1, hd2⟩ := h d (List.mem_cons_self d ds)
    obtain ⟨ih1, ih2⟩ := ih (mainStep acc d) (fun x hx => h x (List.mem_cons_of_mem d hx))
    cases ht : d.d_avg_time with
    | none => exact absurd ht hd1
    | some t =>
      refine ⟨?_, ?_⟩
      · rw [List.foldl_cons, ih1]
        simp only [mainStep, ht, List.map_cons, List.sum_cons, if_neg hd2, Option.getD_some]
        ring
      · rw [List.foldl_cons, ih2]
        simp only [mainStep, ht, List.map_cons, List.sum_cons, if_neg hd2]
        omega

theorem eval_dataset_tokens_ne_none (qs : List QueryMeta)
    (h : (eval_dataset qs).d_tokens ≠ none) : 0 < qs.length := by
  unfold eval_dataset at h
  simp only at h
  split_ifs at h with hc
  · exact hc.1
  · exact absurd rfl h

theorem eval_dataset_time_ne_none (qs : List QueryMeta)
    (h : (eval_dataset qs).d_avg_time ≠ none) : 0 < qs.length := by
  unfold eval_dataset at h
  simp only at h
  split_ifs at h with hc
  · exact hc.1
  · exact absurd rfl h

/-- Claim C4 (corrected), counterexample: for a dataset with zero queries no
query lacks a token count, yet the dataset token field is absent rather
than the (empty) sum — the claim omits the `n > 0` requirement that the
code enforces. -/
theorem dataset_tokens_zero_queries_cex :
    (∀ q ∈ ([] : List QueryMeta), q.q_tokens ≠ none) ∧
    (eval_dataset ([] : List QueryMeta)).d_tokens ≠
      some ((([] : List QueryMeta).filterMap (fun q => q.q_tokens)).sum) := by
  refine ⟨?_, ?_⟩
  · intro q hq
    exact absurd hq (List.not_mem_nil q)
  · simp [eval_dataset]

/-- Claim C4 (corrected), amended claim: for every dataset with *at least one
query*, the token field is absent iff some query lacks a token count, and
otherwise equals the sum of the per-query tokens; a dataset with zero
queries reports an absent token field; and for the ALL row over a nonempty
selection, the token field is absent unless every dataset reported a
non-absent token value, in which case it is the sum of the dataset token
values. -/
theorem tokens_strict_policy (qss : List (List QueryMeta)) (hne : qss ≠ []) :
    (∀ qs : List QueryMeta,
      ((∃ q ∈ qs, q.q_tokens = none) → (eval_dataset qs).d_tokens = none) ∧
      (qs ≠ [] → (∀ q ∈ qs, q.q_tokens ≠ none) →
        (eval_dataset qs).d_tokens = some ((qs.filterMap (fun q => q.q_tokens)).sum)) ∧
      (qs = [] → (eval_dataset qs).d_tokens = none)) ∧
    ((∃ d ∈ qss.map eval_dataset, d.d_tokens = none) →
      (mainOverall (qss.map eval_dataset)).1 = none) ∧
    ((∀ d ∈ qss.map eval_dataset, d.d_tokens ≠ none) →
      (mainOverall (qss.map eval_dataset)).1 =
        some (((qss.map eval_dataset).filterMap (fun d => d.d_tokens)).sum)) := by
  refine ⟨?_, ?_, ?_⟩
  · intro qs
    refine ⟨?_, ?_, ?_⟩
    · rintro ⟨q, hq, hqn⟩
      unfold eval_dataset
      simp only
      rw [if_neg]
      rintro ⟨-, hall⟩
      have hq2 := List.all_eq_true.mp hall q hq
      rw [hqn] at hq2
      simp at hq2
    · intro h1 h2
      unfold eval_dataset
      simp only
      rw [if_pos]
      refine ⟨List.length_pos.mpr h1, List.all_eq_true.mpr ?_⟩
      intro q hq
      have := h2 q hq
      simpa [Option.isSome_iff_ne_none] using this
    · intro h
      subst h
      simp [eval_dataset]
  · rintro ⟨d, hd, hdn⟩
    unfold mainOverall
    simp only
    rw [if_neg]
    rintro ⟨hall, -⟩
    rw [(mainFold_core _ _).2.1] at hall
    simp only [Bool.true_and] at hall
    have hd2 := List.all_eq_true.mp hall d hd
    rw [hdn] at hd2
    simp at hd2
  · intro hall
    unfold mainOverall
    simp only
    obtain ⟨h1, h2, h3, -⟩ := mainFold_core (qss.map eval_dataset) ⟨0, true, 0, true, 0, 0⟩
    rw [if_pos, h3, zero_add]
    constructor
    · rw [h2, Bool.true_and]
      apply List.all_eq_true.mpr
      intro d hd
      have := hall d hd
      simpa [Option.isSome_iff_ne_none] using this
    · rw [h1, Nat.zero_add]
      cases qss with
      | nil => exact absurd rfl hne
      | cons q0 rest =>
        have hd0 : eval_dataset q0 ∈ (q0 :: rest).map eval_dataset := by simp
        have hpos : 0 < q0.length := eval_dataset_tokens_ne_none q0 (hall _ hd0)
        simp only [List.map_cons, List.sum_cons]
        have : (eval_dataset q0).n = q0.length := rfl
        omega

/-- Witness for C4: one dataset, one query reporting 3 tokens — the ALL
token field is the sum 3. -/
theorem tokens_strict_policy_witness :
    (mainOverall ([[(⟨some 3, some 1⟩ : QueryMeta)]].map eval_dataset)).1 = some 3 :=
  ((tokens_strict_policy [[(⟨some 3, some 1⟩ : QueryMeta)]] (List.cons_ne_nil _ _)).2.2
    (by intro d hd; simp at hd; subst hd; simp [eval_dataset])).trans (by decide)

/-- Claim C5 (corrected), counterexample: dataset A has one query reporting a
time and dataset B has zero queries.  Every dataset *with at least one
query* reported a non-absent time, yet the ALL time field is absent: the
loop of `main` clears the time flag for a dataset whose time is absent or
whose query count is zero, and a zero-query dataset always has an absent
time, so it does force the ALL time field blank — against the claim's
parenthetical. -/
theorem overall_time_zero_query_dataset_cex :
    (∀ d ∈ ([[(⟨some 1, some 2⟩ : QueryMeta)], []].map eval_dataset),
      0 < d.n → d.d_avg_time ≠ none) ∧
    (mainOverall ([[(⟨some 1, some 2⟩ : QueryMeta)], []].map eval_dataset)).2 = none := by
  constructor
  · intro d hd
    simp only [List.map_cons, List.map_nil, List.mem_cons, List.not_mem_nil, or_false,
      List.mem_singleton] at hd
    rcases hd with h | h <;> subst h <;> simp [eval_dataset]
  · decide

/-- Claim C5 (corrected), amended claim: the ALL time field is the
query-count-weighted mean of the per-dataset average times, and it is
absent unless *every* selected dataset — including any dataset with zero
queries, whose own time field is necessarily absent — reported a
non-absent time.  (The amendment is forced by the counterexample: a
zero-query dataset does, by itself, force the ALL time field to be
absent.) -/
theorem time_strict_policy (qss : List (List QueryMeta)) (hne : qss ≠ []) :
    ((∀ qs : List QueryMeta, qs = [] → (eval_dataset qs).d_avg_time = none) ∧
     ((∃ d ∈ qss.map eval_dataset, d.d_avg_time = none) →
       (mainOverall (qss.map eval_dataset)).2 = none) ∧
     ((∀ d ∈ qss.map eval_dataset, d.d_avg_time ≠ none) →
       (mainOverall (qss.map eval_dataset)).2 =
         some ((((qss.map eval_dataset).map (fun d => d.d_avg_time.getD 0 * (d.n : ℚ))).sum) /
           ((((qss.map eval_dataset).map (fun d => d.n)).sum : ℕ) : ℚ)))) := by
  have hn_of_time : ∀ d ∈ qss.map eval_dataset, d.d_avg_time ≠ none → d.n ≠ 0 := by
    intro d hd hdt
    obtain ⟨qs, -, rfl⟩ := List.mem_map.mp hd
    have := eval_dataset_time_ne_none qs hdt
    have hn : (eval_dataset qs).n = qs.length := rfl
    omega
  refine ⟨?_, ?_, ?_⟩
  · intro qs h
    subst h
    simp [eval_dataset]
  · rintro ⟨d, hd, hdn⟩
    unfold mainOverall
    simp only
    rw [if_neg]
    rintro ⟨hall, -⟩
    rw [(mainFold_core _ _).2.2.2] at hall
    simp only [Bool.true_and] at hall
    have hd2 := List.all_eq_true.mp hall d hd
    rw [hdn] at hd2
    simp at hd2
  · intro hall
    unfold mainOverall
    simp only
    have htw := mainFold_tw (qss.map eval_dataset) ⟨0, true, 0, true, 0, 0⟩
      (fun d hd => ⟨hall d hd, hn_of_time d hd (hall d hd)⟩)
    obtain ⟨htw1, htw2⟩ := htw
    rw [if_pos, htw1, htw2, zero_add, Nat.zero_add]
    constructor
    · rw [(mainFold_core _ _).2.2.2, Bool.true_and]
      apply List.all_eq_true.mpr
      intro d hd
      have h1 := hall d hd
      have h2 := hn_of_time d hd h1
      simp [Option.isSome_iff_ne_none, h1, h2]
    · rw [htw2, Nat.zero_add]
      cases qss with
      | nil => exact absurd rfl hne
      | cons q0 rest =>
        have hd0 : eval_dataset q0 ∈ (q0 :: rest).map eval_dataset := by simp
        have hpos : 0 < q0.length := eval_dataset_time_ne_none q0 (hall _ hd0)
        simp only [List.map_cons, List.sum_cons]
        have hn : (eval_dataset q0).n = q0.length := rfl
        omega

/-- Witness for C5: one dataset, one query with time 2 — the ALL time field
is the weighted mean 2. -/
theorem time_strict_policy_witness :
    (mainOverall ([[(⟨some 1, some 2⟩ : QueryMeta)]].map eval_dataset)).2 = some 2 :=
  ((time_strict_policy [[(⟨some 1, some 2⟩ : QueryMeta)]] (List.cons_ne_nil _ _)).2.2
    (by intro d hd; simp at hd; subst hd; simp [eval_dataset])).trans (by decide)

/-- Claim C9 (confirmed): `read_submission_file` returns an empty table with
absent tokens and absent time, without raising, for a `None` path and for
any path that does not exist; and for every existing path whose lowercased
extension is neither `.csv` nor `.json`, both `read_submission_file` and
`read_table_file` raise the unsupported-format error. -/
theorem read_dispatch_spec (readCsv : PathInfo → Table)
    (readJsonSub : PathInfo → Table × Option ℚ × Option ℚ)
    (readJson : PathInfo → Table) (p : PathInfo) :
    (read_submission_file readCsv readJsonSub none = .ok (⟨[], []⟩, none, none)) ∧
    (p.fileExists = false →
      read_submission_file readCsv readJsonSub (some p) = .ok (⟨[], []⟩, none, none)) ∧
    (p.fileExists = true → pyLower p.suffix ≠ ".csv".data → pyLower p.suffix ≠ ".json".data →
      read_submission_file readCsv readJsonSub (some p) = .error .unsupportedFormat ∧
      read_table_file readCsv readJson p = .error .unsupportedFormat) := by
  have hred : read_submission_file readCsv readJsonSub (some p) =
      (if p.fileExists = false then Except.ok (⟨[], []⟩, none, none)
       else if pyLower p.suffix = ".csv".data then Except.ok (readCsv p, none, none)
       else if pyLower p.suffix = ".json".data then Except.ok (readJsonSub p)
       else Except.error ReadError.unsupportedFormat) := rfl
  refine ⟨rfl, ?_, ?_⟩
  · intro h
    rw [hred, if_pos h]
  · intro hex hcsv hjson
    constructor
    · rw [hred, if_neg (by rw [hex]; simp), if_neg hcsv, if_neg hjson]
    · unfold read_table_file
      rw [if_neg hcsv, if_neg hjson]

/-- Witness for C9 at a missing path and at an existing `.txt` path. -/
theorem read_dispatch_spec_witness :
    read_submission_file (fun _ => ⟨[], []⟩) (fun _ => (⟨[], []⟩, none, none))
      (some ⟨false, ".txt".data⟩) = .ok (⟨[], []⟩, none, none) ∧
    read_submission_file (fun _ => ⟨[], []⟩) (fun _ => (⟨[], []⟩, none, none))
      (some ⟨true, ".txt".data⟩) = .error .unsupportedFormat ∧
    read_table_file (fun _ => ⟨[], []⟩) (fun _ => ⟨[], []⟩) ⟨true, ".txt".data⟩ =
      .error .unsupportedFormat := by
  refine ⟨?_, ?_, ?_⟩
  · exact (read_dispatch_spec _ _ (fun _ => ⟨[], []⟩) ⟨false, ".txt".data⟩).2.1 rfl
  · exact ((read_dispatch_spec _ _ (fun _ => ⟨[], []⟩) ⟨true, ".txt".data⟩).2.2 rfl
      (by decide) (by decide)).1
  · exact ((read_dispatch_spec (fun _ => ⟨[], []⟩) (fun _ => (⟨[], []⟩, none, none)) _
      ⟨true, ".txt".data⟩).2.2 rfl (by decide) (by decide)).2
